import Mathlib

/-!
# Verification of the Drishti feature/scoring pipeline

Shallow embedding of the core pipeline of this repository:

* `src/preprocessing.py` — `DataEngine.load_and_merge_data`: per-pincode
  aggregation of enrolment / biometric / demographic update tables, outer
  join on pincode, and computation of the three risk features.
* `src/engine.py` — `AnomalyDetector.train_and_score`: IsolationForest
  scoring, SHAP attribution, label/status columns.

Numeric columns are embedded as `ℚ` (the source works on finite floats; no
claim here depends on rounding).  The time-series extraction in Part 1 of
`load_and_merge_data` only produces a side CSV and mutates only the `date`
column, which Part 2 never reads, so it does not affect the returned master
table and is not embedded.  `pd.read_csv` / file-system I/O is embedded as
the already-loaded lists of per-file tables the loader iterates over.
-/

/-! ## Data model of the raw inputs (preprocessing.py) -/

/-- One row of an enrolment CSV after the loader lowercases/strips the
column names: `pincode`, `age_0_5`, `age_18_greater`, `state`, `district`
(the columns `DataEngine.load_and_merge_data` aggregates). -/
structure EnrolRow where
  pincode : Nat
  age_0_5 : ℚ
  age_18_greater : ℚ
  state : String
  district : String
deriving DecidableEq

/-- One row of a biometric or demographic CSV: its pincode and its
bracket-count values, positionally aligned with the category's column-name
list (the `date` column is irrelevant to the master table, see header). -/
abbrev URow := Nat × List ℚ

/-- The input the loader iterates over: the per-category files found by the
filename-keyword scan, each already parsed.  Files of one category share
that category's bracket-column names (`bioCols`/`demoCols`, lowercased,
`pincode` excluded since it is the first component of a `URow`). -/
structure LoaderInput where
  enrolFiles : List (List EnrolRow)
  bioCols : List String
  bioFiles : List (List URow)
  demoCols : List String
  demoFiles : List (List URow)
deriving DecidableEq

/-- Python's substring test `pat in s` on strings. -/
def strContains (s pat : String) : Bool :=
  (List.range (s.toList.length + 1)).any (fun i => pat.toList.isPrefixOf (s.toList.drop i))

/-- `files_found` of the loader: every parsed file of any category counts. -/
def filesFound (inp : LoaderInput) : Nat :=
  inp.enrolFiles.length + inp.bioFiles.length + inp.demoFiles.length

/-- `df_enrol = pd.concat(enrol_dfs)`: all enrolment rows, in file order. -/
def enrolRows (inp : LoaderInput) : List EnrolRow := inp.enrolFiles.flatten

/-- `df_bio = pd.concat(bio_dfs)`. -/
def bioRows (inp : LoaderInput) : List URow := inp.bioFiles.flatten

/-- `df_demo = pd.concat(demo_dfs)`. -/
def demoRows (inp : LoaderInput) : List URow := inp.demoFiles.flatten

/-- The biometric columns that reach the master table:
`[c for c in df_bio.columns if 'bio_age' in c]`, and nothing when
`df_bio.empty` (then `bio_grouped` has only the `pincode` column). -/
def bioSel (inp : LoaderInput) : List String :=
  if (bioRows inp).isEmpty then [] else inp.bioCols.filter (fun c => strContains c "bio_age")

/-- The demographic columns that reach the master table (`'demo_age' in c`). -/
def demoSel (inp : LoaderInput) : List String :=
  if (demoRows inp).isEmpty then [] else inp.demoCols.filter (fun c => strContains c "demo_age")

/-- Whether the master table has the enrolment columns
`age_0_5`/`age_18_greater`/`state`/`district`: exactly when `df_enrol` is
nonempty (otherwise `enrol_grouped` is `DataFrame(columns=['pincode'])`). -/
def hasAgeCols (inp : LoaderInput) : Bool := !(enrolRows inp).isEmpty

/-- The pincodes appearing in the enrolment rows. -/
def enrolPincodes (inp : LoaderInput) : List Nat := (enrolRows inp).map (·.pincode)

/-- The pincodes appearing in the biometric rows. -/
def bioPincodes (inp : LoaderInput) : List Nat := (bioRows inp).map Prod.fst

/-- The pincodes appearing in the demographic rows. -/
def demoPincodes (inp : LoaderInput) : List Nat := (demoRows inp).map Prod.fst

/-- The keys of the master table: the outer joins keep every pincode of any
source exactly once, and pandas emits outer-join keys sorted. -/
def allKeys (inp : LoaderInput) : List Nat :=
  List.insertionSort (· ≤ ·) ((enrolPincodes inp ++ bioPincodes inp ++ demoPincodes inp).dedup)

/-- Value of a named bracket column in one raw row (`vals` aligned with
`cols`); 0 when the name is absent. -/
def colVal (cols : List String) (vals : List ℚ) (c : String) : ℚ :=
  vals.getD (cols.indexOf c) 0

/-- `groupby('pincode')[...].sum()` of one bracket column at one key. -/
def sumCol (cols : List String) (rows : List URow) (k : Nat) (c : String) : ℚ :=
  ((rows.filter (fun r => r.1 == k)).map (fun r => colVal cols r.2 c)).sum

/-- The enrolment rows of one pincode group, in original order. -/
def enrolGroup (inp : LoaderInput) (k : Nat) : List EnrolRow :=
  (enrolRows inp).filter (fun r => r.pincode == k)

/-- `age_0_5` of the master table at key `k`: the group sum when `k` comes
from the enrolment table, else the value `fillna(0)` put there. -/
def enrolAge05 (inp : LoaderInput) (k : Nat) : ℚ :=
  if k ∈ enrolPincodes inp then ((enrolGroup inp k).map (·.age_0_5)).sum else 0

/-- `age_18_greater` of the master table at key `k` (group sum or fill 0). -/
def enrolAge18 (inp : LoaderInput) (k : Nat) : ℚ :=
  if k ∈ enrolPincodes inp then ((enrolGroup inp k).map (·.age_18_greater)).sum else 0

/-- `state` at key `k`: the group's `'first'` aggregate; a key missing from
the enrolment table gets `fillna(0)`'s value, rendered `"0"`. -/
def stateAt (inp : LoaderInput) (k : Nat) : String :=
  ((enrolGroup inp k).head?.map (·.state)).getD "0"

/-- `district` at key `k`, as `stateAt`. -/
def districtAt (inp : LoaderInput) (k : Nat) : String :=
  ((enrolGroup inp k).head?.map (·.district)).getD "0"

/-- Value of numeric column `c` of the master table at key `k`: from the
biometric group sums when `c` is a merged biometric column, else from the
demographic ones, with `fillna(0)` for keys the source lacks. -/
def masterVal (inp : LoaderInput) (k : Nat) (c : String) : ℚ :=
  if c ∈ bioSel inp then
    (if k ∈ bioPincodes inp then sumCol inp.bioCols (bioRows inp) k c else 0)
  else if c ∈ demoSel inp then
    (if k ∈ demoPincodes inp then sumCol inp.demoCols (demoRows inp) k c else 0)
  else 0

/-- `master_df.columns` in merge order: `pincode`, then the enrolment
columns (when present), then the merged biometric and demographic ones. -/
def colOrder (inp : LoaderInput) : List String :=
  "pincode" ::
    ((if hasAgeCols inp then ["age_0_5", "age_18_greater", "state", "district"] else []) ++
      bioSel inp ++ demoSel inp)

/-- `[c for c in master_df.columns if 'bio' in c and '17' in c][0]`, as an
`Option`: `none` is the `IndexError` case of the `try`. -/
def bioAdultCol (inp : LoaderInput) : Option String :=
  ((colOrder inp).filter (fun c => strContains c "bio" && strContains c "17")).head?

/-- `[c for c in master_df.columns if 'demo' in c and '17' in c][0]`. -/
def demoAdultCol (inp : LoaderInput) : Option String :=
  ((colOrder inp).filter (fun c => strContains c "demo" && strContains c "17")).head?

/-- Whether the `try` block succeeds: both adult update columns located
(when either lookup raises `IndexError` the `except` sets both defaults). -/
def adultColsFound (inp : LoaderInput) : Bool :=
  (bioAdultCol inp).isSome && (demoAdultCol inp).isSome

/-- The located biometric adult-update value at key `k` (0 outside the
`try` success path, where it is never read). -/
def bioAdultVal (inp : LoaderInput) (k : Nat) : ℚ :=
  match bioAdultCol inp with
  | some c => masterVal inp k c
  | none => 0

/-- The located demographic adult-update value at key `k`. -/
def demoAdultVal (inp : LoaderInput) (k : Nat) : ℚ :=
  match demoAdultCol inp with
  | some c => masterVal inp k c
  | none => 0

/-- `total_activity = master_df['age_0_5'] + master_df['age_18_greater'] + 1`,
the denominator of `adult_spike_ratio`. -/
def total_activity (inp : LoaderInput) (k : Nat) : ℚ :=
  enrolAge05 inp k + enrolAge18 inp k + 1

/-- `master_df[bio_adult_col] + 1`, the denominator of `ghost_ratio`. -/
def ghostDen (inp : LoaderInput) (k : Nat) : ℚ := bioAdultVal inp k + 1

/-- One row of the returned master table: key, carried labels and the three
engineered features (the summed raw columns also stay in `master_df`; they
are reachable through `masterVal` and never rewritten afterwards). -/
structure FeatRow where
  pincode : Nat
  state : String
  district : String
  adult_spike_ratio : ℚ
  velocity_index : ℚ
  ghost_ratio : ℚ
deriving DecidableEq

/-- The master-table row at key `k`, with the three features exactly as the
feature-engineering block computes them: `adult_spike_ratio` when the
enrolment age columns exist else the `0.0` default; `velocity_index` and
`ghost_ratio` from the located adult columns, else the `except IndexError`
defaults `0.0`. -/
def featRow (inp : LoaderInput) (k : Nat) : FeatRow :=
  { pincode := k
    state := stateAt inp k
    district := districtAt inp k
    adult_spike_ratio :=
      if hasAgeCols inp then enrolAge18 inp k / total_activity inp k else 0
    velocity_index :=
      if adultColsFound inp then bioAdultVal inp k + demoAdultVal inp k else 0
    ghost_ratio :=
      if adultColsFound inp then demoAdultVal inp k / ghostDen inp k else 0 }

/-- `DataEngine.load_and_merge_data`: raises `ValueError` when the keyword
scan matched no file at all, otherwise returns the merged master table with
one row per pincode.  (The raised message is abridged to plain ASCII.) -/
def load_and_merge_data (inp : LoaderInput) : Except String (List FeatRow) :=
  if filesFound inp = 0 then .error "No valid CSV files found in data folder"
  else .ok ((allKeys inp).map (featRow inp))

/-- The claims' standing hypothesis on raw inputs: every age-bracket count
is non-negative. -/
def NonnegInput (inp : LoaderInput) : Prop :=
  (∀ r ∈ enrolRows inp, 0 ≤ r.age_0_5 ∧ 0 ≤ r.age_18_greater) ∧
  (∀ r ∈ bioRows inp, ∀ v ∈ r.2, 0 ≤ v) ∧
  (∀ r ∈ demoRows inp, ∀ v ∈ r.2, 0 ≤ v)

/-- The value of an `Except` when it is `ok`, else a default. -/
def okD {ε α : Type} (e : Except ε α) (d : α) : α :=
  match e with
  | .ok a => a
  | .error _ => d

/-! ## Anomaly engine (engine.py)

`AnomalyDetector.train_and_score` delegates the statistics to two external
libraries; what the repository itself fixes is the glue:

* `IsolationForest(contamination=c, random_state=42, n_jobs=-1)` —
  per scikit-learn, fitting computes per-sample scores `score_samples`
  (a deterministic function of the resolved random seed and the training
  matrix, and independent of `contamination`), and sets the threshold
  `offset_ = np.percentile(score_samples(X), 100*c)`; then
  `decision_function(x) = score_samples(x) - offset_` and `predict` is
  `-1` where `decision_function < 0` else `1`.  `score_samples` itself is
  not repository code, so it is modelled by a concrete deterministic
  stand-in; no theorem below depends on its particular values, only on the
  structure above.
* `shap.TreeExplainer(model).shap_values(X)` — one additive contribution
  per row and feature, a deterministic function of the fitted model and the
  row; modelled by a concrete stand-in consistent with the stand-in scores.

`n_jobs=-1` only parallelises tree construction and is observationally
irrelevant.  `X = df[features].fillna(0)` cannot act on `ℚ` rows (no NaN),
so `featuresOf` is the plain projection. -/

/-- A point of the tri-vector feature space, in the column order
`features = ['adult_spike_ratio', 'velocity_index', 'ghost_ratio']`. -/
abbrev Feat3 := ℚ × ℚ × ℚ

/-- `df[features]` for one row. -/
def featuresOf (r : FeatRow) : Feat3 :=
  (r.adult_spike_ratio, r.velocity_index, r.ghost_ratio)

/-- scikit-learn's seeding contract: a fixed `random_state` makes the
ambient entropy irrelevant; `random_state=None` would draw from it. -/
def resolveSeed (random_state : Option Nat) (entropy : Nat) : Nat :=
  random_state.getD entropy

/-- The `random_state=42` the engine hard-codes. -/
def codeRandomState : Option Nat := some 42

/-- Stand-in for `score_samples` of the fitted forest at one point: some
deterministic function of the resolved seed, the training matrix and the
point (see the section header). -/
def scoreSample (seed : Nat) (trainX : List Feat3) (x : Feat3) : ℚ :=
  -(x.1 + x.2.1 + x.2.2) - seed - trainX.length

/-- `model.score_samples(X)` rowwise. -/
def scoreSamples (seed : Nat) (trainX X : List Feat3) : List ℚ :=
  X.map (scoreSample seed trainX)

/-- Stand-in for the SHAP row of one point: additive contributions that sum
to the stand-in score up to its per-model base value. -/
def shapRow (seed : Nat) (trainX : List Feat3) (x : Feat3) : Feat3 :=
  (-x.1, -x.2.1, -x.2.2)

/-- Linear-interpolation percentile over a sorted copy, as `np.percentile`
evaluates `offset_`: position `q/100*(n-1)`, interpolating between the
bracketing order statistics. -/
def interpAt (s : List ℚ) (p : ℚ) : ℚ :=
  let i := (⌊p⌋).toNat
  let lo := s.getD (min i (s.length - 1)) 0
  let hi := s.getD (min (i + 1) (s.length - 1)) 0
  lo + (p - (⌊p⌋ : ℚ)) * (hi - lo)

/-- `np.percentile(l, q)` (linear interpolation, the default). -/
def percentile (l : List ℚ) (q : ℚ) : ℚ :=
  interpAt (List.insertionSort (· ≤ ·) l) (q / 100 * ((l.length : ℚ) - 1))

/-- `DataFrame.idxmax(axis=1)` over the three feature columns: the first
column, in `features` order, holding the row maximum. -/
def idxmax3 (a b c : ℚ) : String :=
  if b ≤ a ∧ c ≤ a then "adult_spike_ratio"
  else if c ≤ b then "velocity_index"
  else "ghost_ratio"

/-- A row of the returned scored table: the input row's columns, untouched,
plus exactly the four columns `train_and_score` assigns. -/
structure ScoredRow where
  base : FeatRow
  anomaly_label : Int
  anomaly_score : ℚ
  primary_risk_factor : String
  risk_status : String
deriving DecidableEq

/-- The scored row for input row `r`: `anomaly_label = model.predict`,
`anomaly_score = model.decision_function`, `primary_risk_factor` the
`idxmax` of the absolute SHAP row, `risk_status` `'CRITICAL'` on label
`-1` else `'Low'`. -/
def mkScoredRow (seed : Nat) (trainX : List Feat3) (offset : ℚ) (r : FeatRow) : ScoredRow :=
  let s := scoreSample seed trainX (featuresOf r)
  let label : Int := if s - offset < 0 then -1 else 1
  let sh := shapRow seed trainX (featuresOf r)
  { base := r
    anomaly_label := label
    anomaly_score := s - offset
    primary_risk_factor := idxmax3 |sh.1| |sh.2.1| |sh.2.2|
    risk_status := if label = -1 then "CRITICAL" else "Low" }

/-- `AnomalyDetector.train_and_score(df, contamination)`: fit on the
feature matrix of `df` (under the ambient entropy that `random_state=42`
overrides), threshold at the contamination percentile, and return the
input rows with the four scored columns appended.  The body has no
degenerate-sample check and no raise of its own; the only failures are
scikit-learn's own fit-time `ValueError`s, which `fit` raises before any
scoring: a numeric `contamination` outside the interval `(0, 0.5]`, and an
empty feature matrix (rejected by `check_array`).  Any nonempty matrix —
one sample, or duplicated samples — is fitted and scored. -/
def train_and_score (entropy : Nat) (df : List FeatRow) (contamination : ℚ) :
    Except String (List ScoredRow) :=
  let X := df.map featuresOf
  if 0 < contamination ∧ contamination ≤ 1/2 then
    if X.isEmpty then .error "Found array with 0 samples"
    else
      let seed := resolveSeed codeRandomState entropy
      let offset := percentile (scoreSamples seed X X) (100 * contamination)
      .ok (df.map (mkScoredRow seed X offset))
  else .error "contamination must be in the interval (0, 0.5]"

/-- The number of rows the run reports as anomalous. -/
def countCritical (l : List ScoredRow) : Nat :=
  l.countP (fun s => s.risk_status == "CRITICAL")

/-- The SHAP row attached to `r` when scoring `df` (the attribution the
engine computes against the same fitted model, reachable from a scored
row through its preserved `base`). -/
def shapAt (entropy : Nat) (df : List FeatRow) (r : FeatRow) : Feat3 :=
  shapRow (resolveSeed codeRandomState entropy) (df.map featuresOf) (featuresOf r)

/-- Modelled from the spec: the feature of largest absolute contribution,
ties broken by the fixed priority `adult_spike_ratio` over `velocity_index`
over `ghost_ratio`.  Stated from the spec's words for comparison with the
code's `idxmax3`. -/
def priorityArgmax (a b c : ℚ) : String :=
  if b ≤ a ∧ c ≤ a then "adult_spike_ratio"
  else if a ≤ b ∧ c ≤ b then "velocity_index"
  else "ghost_ratio"

/-- The properties claim C6 asks of a chosen factor name `n` for absolute
contributions `(a, b, c)`: a defined feature name, of maximal absolute
contribution, with ties resolved by the fixed priority order. -/
def PrfSpec (a b c : ℚ) (n : String) : Prop :=
  (n = "adult_spike_ratio" ∨ n = "velocity_index" ∨ n = "ghost_ratio") ∧
  (n = "adult_spike_ratio" → b ≤ a ∧ c ≤ a) ∧
  (n = "velocity_index" → a ≤ b ∧ c ≤ b) ∧
  (n = "ghost_ratio" → a ≤ c ∧ b ≤ c) ∧
  (b ≤ a ∧ c ≤ a → n = "adult_spike_ratio") ∧
  (¬(b ≤ a ∧ c ≤ a) ∧ c ≤ b → n = "velocity_index") ∧
  n = priorityArgmax a b c

/-! ## Facts about the feature builder -/

theorem getD_nonneg {l : List ℚ} (h : ∀ v ∈ l, 0 ≤ v) (i : Nat) : 0 ≤ l.getD i 0 := by
  rcases lt_or_le i l.length with hi | hi
  · rw [List.getD_eq_getElem l 0 hi]
    exact h _ (List.getElem_mem hi)
  · rw [List.getD_eq_default l 0 hi]

theorem colVal_nonneg {cols : List String} {vals : List ℚ} (h : ∀ v ∈ vals, 0 ≤ v)
    (c : String) : 0 ≤ colVal cols vals c :=
  getD_nonneg h _

theorem sumCol_nonneg {cols : List String} {rows : List URow}
    (h : ∀ r ∈ rows, ∀ v ∈ r.2, 0 ≤ v) (k : Nat) (c : String) :
    0 ≤ sumCol cols rows k c := by
  apply List.sum_nonneg
  intro x hx
  obtain ⟨r, hr, rfl⟩ := List.mem_map.mp hx
  exact colVal_nonneg (h r (List.mem_of_mem_filter hr)) c

theorem enrolAge05_nonneg {inp : LoaderInput} (h : NonnegInput inp) (k : Nat) :
    0 ≤ enrolAge05 inp k := by
  unfold enrolAge05
  split
  · apply List.sum_nonneg
    intro x hx
    obtain ⟨r, hr, rfl⟩ := List.mem_map.mp hx
    exact (h.1 r (List.mem_of_mem_filter hr)).1
  · exact le_refl 0

theorem enrolAge18_nonneg {inp : LoaderInput} (h : NonnegInput inp) (k : Nat) :
    0 ≤ enrolAge18 inp k := by
  unfold enrolAge18
  split
  · apply List.sum_nonneg
    intro x hx
    obtain ⟨r, hr, rfl⟩ := List.mem_map.mp hx
    exact (h.1 r (List.mem_of_mem_filter hr)).2
  · exact le_refl 0

theorem masterVal_nonneg {inp : LoaderInput} (h : NonnegInput inp) (k : Nat) (c : String) :
    0 ≤ masterVal inp k c := by
  unfold masterVal
  split
  · split
    · exact sumCol_nonneg h.2.1 k c
    · exact le_refl 0
  · split
    · split
      · exact sumCol_nonneg h.2.2 k c
      · exact le_refl 0
    · exact le_refl 0

theorem bioAdultVal_nonneg {inp : LoaderInput} (h : NonnegInput inp) (k : Nat) :
    0 ≤ bioAdultVal inp k := by
  unfold bioAdultVal
  cases bioAdultCol inp with
  | some c => exact masterVal_nonneg h k c
  | none => exact le_refl 0

theorem demoAdultVal_nonneg {inp : LoaderInput} (h : NonnegInput inp) (k : Nat) :
    0 ≤ demoAdultVal inp k := by
  unfold demoAdultVal
  cases demoAdultCol inp with
  | some c => exact masterVal_nonneg h k c
  | none => exact le_refl 0

theorem total_activity_pos {inp : LoaderInput} (h : NonnegInput inp) (k : Nat) :
    0 < total_activity inp k := by
  have h05 := enrolAge05_nonneg h k
  have h18 := enrolAge18_nonneg h k
  unfold total_activity
  linarith

theorem ghostDen_pos {inp : LoaderInput} (h : NonnegInput inp) (k : Nat) :
    0 < ghostDen inp k := by
  have hb := bioAdultVal_nonneg h k
  unfold ghostDen
  linarith

/-- Rows of a successful load are exactly `featRow` at the merged keys. -/
theorem load_ok_shape {inp : LoaderInput} {out : List FeatRow}
    (hload : load_and_merge_data inp = .ok out) :
    out = (allKeys inp).map (featRow inp) := by
  unfold load_and_merge_data at hload
  split at hload
  · cases hload
  · cases hload
    rfl

/-! ## Claim C1 -/

/-- Claim C1: for every region row produced by the Feature Builder,
`adult_spike_ratio` lies in `[0, 1]`, `velocity_index` is `≥ 0` and
`ghost_ratio` is `≥ 0`, assuming the raw age-bracket counts are
non-negative. -/
theorem C1_feature_ranges (inp : LoaderInput) (out : List FeatRow) (r : FeatRow)
    (h : NonnegInput inp) (hload : load_and_merge_data inp = .ok out) (hr : r ∈ out) :
    0 ≤ r.adult_spike_ratio ∧ r.adult_spike_ratio ≤ 1 ∧
      0 ≤ r.velocity_index ∧ 0 ≤ r.ghost_ratio := by
  rw [load_ok_shape hload] at hr
  obtain ⟨k, hk, rfl⟩ := List.mem_map.mp hr
  refine ⟨?_, ?_, ?_, ?_⟩
  · show 0 ≤ if hasAgeCols inp then enrolAge18 inp k / total_activity inp k else 0
    split
    · exact div_nonneg (enrolAge18_nonneg h k) (le_of_lt (total_activity_pos h k))
    · exact le_refl 0
  · show (if hasAgeCols inp then enrolAge18 inp k / total_activity inp k else 0) ≤ 1
    split
    · rw [div_le_one (total_activity_pos h k)]
      have h05 := enrolAge05_nonneg h k
      unfold total_activity
      linarith
    · exact zero_le_one
  · show 0 ≤ if adultColsFound inp then bioAdultVal inp k + demoAdultVal inp k else 0
    split
    · exact add_nonneg (bioAdultVal_nonneg h k) (demoAdultVal_nonneg h k)
    · exact le_refl 0
  · show 0 ≤ if adultColsFound inp then demoAdultVal inp k / ghostDen inp k else 0
    split
    · exact div_nonneg (demoAdultVal_nonneg h k) (le_of_lt (ghostDen_pos h k))
    · exact le_refl 0

/-- A concrete pipeline input: one row in each of the three sources, all at
pincode 11, with the usual Aadhaar-style bracket column names. -/
def wInp1 : LoaderInput :=
  { enrolFiles := [[⟨11, 2, 3, "KL", "EKM"⟩]]
    bioCols := ["bio_age_5_17"]
    bioFiles := [[(11, [4])]]
    demoCols := ["demo_age_17_plus"]
    demoFiles := [[(11, [5])]] }

theorem C1_feature_ranges_witness :
    NonnegInput wInp1 ∧
      (0 ≤ (featRow wInp1 11).adult_spike_ratio ∧ (featRow wInp1 11).adult_spike_ratio ≤ 1 ∧
        0 ≤ (featRow wInp1 11).velocity_index ∧ 0 ≤ (featRow wInp1 11).ghost_ratio) := by
  have hn : NonnegInput wInp1 := by unfold NonnegInput; decide
  exact ⟨hn, C1_feature_ranges wInp1 _ _ hn rfl (List.Mem.head _)⟩

/-! ## Claim C8 -/

/-- Claim C8: the Feature Builder's ratio computations never divide by
zero for non-negative inputs — both denominators carry a `+1` offset and
are strictly positive; a region with zero biometric and zero demographic
adult updates yields `ghost_ratio = 0` and `velocity_index = 0`, and a
region with zero adult enrolments yields `adult_spike_ratio = 0`. -/
theorem C8_no_division_by_zero (inp : LoaderInput) (out : List FeatRow) (r : FeatRow)
    (h : NonnegInput inp) (hload : load_and_merge_data inp = .ok out) (hr : r ∈ out) :
    0 < total_activity inp r.pincode ∧ 0 < ghostDen inp r.pincode ∧
      (bioAdultVal inp r.pincode = 0 ∧ demoAdultVal inp r.pincode = 0 →
        r.velocity_index = 0 ∧ r.ghost_ratio = 0) ∧
      (enrolAge18 inp r.pincode = 0 → r.adult_spike_ratio = 0) := by
  rw [load_ok_shape hload] at hr
  obtain ⟨k, hk, rfl⟩ := List.mem_map.mp hr
  have hpin : (featRow inp k).pincode = k := rfl
  rw [hpin]
  refine ⟨total_activity_pos h k, ghostDen_pos h k, ?_, ?_⟩
  · rintro ⟨hb, hd⟩
    constructor
    · show (if adultColsFound inp then bioAdultVal inp k + demoAdultVal inp k else 0) = 0
      split
      · rw [hb, hd, add_zero]
      · rfl
    · show (if adultColsFound inp then demoAdultVal inp k / ghostDen inp k else 0) = 0
      split
      · rw [hd, zero_div]
      · rfl
  · intro h18
    show (if hasAgeCols inp then enrolAge18 inp k / total_activity inp k else 0) = 0
    split
    · rw [h18, zero_div]
    · rfl

theorem C8_no_division_by_zero_witness :
    NonnegInput wInp1 ∧
      (0 < total_activity wInp1 11 ∧ 0 < ghostDen wInp1 11 ∧
        (bioAdultVal wInp1 11 = 0 ∧ demoAdultVal wInp1 11 = 0 →
          (featRow wInp1 11).velocity_index = 0 ∧ (featRow wInp1 11).ghost_ratio = 0) ∧
        (enrolAge18 wInp1 11 = 0 → (featRow wInp1 11).adult_spike_ratio = 0)) := by
  have hn : NonnegInput wInp1 := by unfold NonnegInput; decide
  exact ⟨hn, C8_no_division_by_zero wInp1 _ _ hn rfl (List.Mem.head _)⟩

/-! ## Claim C5 -/

theorem mem_allKeys {inp : LoaderInput} {k : Nat} :
    k ∈ allKeys inp ↔
      (k ∈ enrolPincodes inp ∨ k ∈ bioPincodes inp ∨ k ∈ demoPincodes inp) := by
  unfold allKeys
  rw [(List.perm_insertionSort (· ≤ ·) _).mem_iff, List.mem_dedup, List.mem_append,
    List.mem_append, or_assoc]

theorem allKeys_nodup (inp : LoaderInput) : (allKeys inp).Nodup := by
  unfold allKeys
  exact (List.perm_insertionSort (· ≤ ·) _).nodup_iff.mpr (List.nodup_dedup _)

/-- Claim C5: the Feature Builder outer-joins the three grouped tables on
pincode — a key present in at least one source appears in the output
exactly once, and a numeric value missing for a key after the join is the
filled zero; in particular with no biometric and no demographic files every
output row has `velocity_index = ghost_ratio = 0` and the keys are exactly
the enrolment pincodes. -/
theorem C5_outer_join_keys (inp : LoaderInput) (out : List FeatRow)
    (hload : load_and_merge_data inp = .ok out) :
    (∀ k, (∃ r ∈ out, r.pincode = k) ↔
        (k ∈ enrolPincodes inp ∨ k ∈ bioPincodes inp ∨ k ∈ demoPincodes inp)) ∧
      (out.map (fun r => r.pincode)).Nodup ∧
      (∀ r ∈ out, r.pincode ∉ enrolPincodes inp →
        enrolAge05 inp r.pincode = 0 ∧ enrolAge18 inp r.pincode = 0) ∧
      (∀ r ∈ out, ∀ c, c ∈ bioSel inp → r.pincode ∉ bioPincodes inp →
        masterVal inp r.pincode c = 0) ∧
      (∀ r ∈ out, ∀ c, c ∉ bioSel inp → r.pincode ∉ demoPincodes inp →
        masterVal inp r.pincode c = 0) ∧
      (inp.bioFiles = [] → inp.demoFiles = [] →
        (∀ r ∈ out, r.velocity_index = 0 ∧ r.ghost_ratio = 0) ∧
          ∀ k, (∃ r ∈ out, r.pincode = k) ↔ k ∈ enrolPincodes inp) := by
  rw [load_ok_shape hload]
  have hmem : ∀ k, (∃ r ∈ (allKeys inp).map (featRow inp), r.pincode = k) ↔
      (k ∈ enrolPincodes inp ∨ k ∈ bioPincodes inp ∨ k ∈ demoPincodes inp) := by
    intro k
    rw [← mem_allKeys]
    constructor
    · rintro ⟨r, hr, rfl⟩
      obtain ⟨j, hj, rfl⟩ := List.mem_map.mp hr
      exact hj
    · intro hk
      exact ⟨featRow inp k, List.mem_map_of_mem (featRow inp) hk, rfl⟩
  refine ⟨hmem, ?_, ?_, ?_, ?_, ?_⟩
  · have : ((allKeys inp).map (featRow inp)).map (fun r => r.pincode) = allKeys inp := by
      rw [List.map_map]
      exact List.map_id _
    rw [this]
    exact allKeys_nodup inp
  · intro r hr hnot
    constructor
    · unfold enrolAge05
      rw [if_neg hnot]
    · unfold enrolAge18
      rw [if_neg hnot]
  · intro r hr c hc hnot
    unfold masterVal
    rw [if_pos hc, if_neg hnot]
  · intro r hr c hc hnot
    unfold masterVal
    rw [if_neg hc]
    by_cases hd : c ∈ demoSel inp
    · rw [if_pos hd, if_neg hnot]
    · rw [if_neg hd]
  · intro hbio hdemo
    have hbrows : bioRows inp = [] := by
      unfold bioRows
      rw [hbio]
      rfl
    have hdrows : demoRows inp = [] := by
      unfold demoRows
      rw [hdemo]
      rfl
    have hbsel : bioSel inp = [] := by
      unfold bioSel
      rw [hbrows]
      rfl
    have hdsel : demoSel inp = [] := by
      unfold demoSel
      rw [hdrows]
      rfl
    have hnone : adultColsFound inp = false := by
      have hcol : colOrder inp =
          "pincode" ::
            ((if hasAgeCols inp then ["age_0_5", "age_18_greater", "state", "district"]
              else []) ++ [] ++ []) := by
        unfold colOrder
        rw [hbsel, hdsel]
      unfold adultColsFound bioAdultCol demoAdultCol
      rw [hcol]
      cases hasAgeCols inp
      · decide
      · decide
    constructor
    · intro r hr
      obtain ⟨j, hj, rfl⟩ := List.mem_map.mp hr
      constructor
      · show (if adultColsFound inp then bioAdultVal inp j + demoAdultVal inp j else 0) = 0
        rw [hnone]
        rfl
      · show (if adultColsFound inp then demoAdultVal inp j / ghostDen inp j else 0) = 0
        rw [hnone]
        rfl
    · intro k
      rw [hmem k]
      have h1 : bioPincodes inp = [] := by
        unfold bioPincodes
        rw [hbrows]
        rfl
      have h2 : demoPincodes inp = [] := by
        unfold demoPincodes
        rw [hdrows]
        rfl
      rw [h1, h2]
      simp

/-- A concrete input with only enrolment files. -/
def wInp5 : LoaderInput :=
  { enrolFiles := [[⟨500, 1, 2, "TN", "CHN"⟩]]
    bioCols := []
    bioFiles := []
    demoCols := []
    demoFiles := [] }

theorem C5_outer_join_keys_witness :
    load_and_merge_data wInp5 = .ok [featRow wInp5 500] ∧
      (featRow wInp5 500).velocity_index = 0 ∧ (featRow wInp5 500).ghost_ratio = 0 ∧
      (500 ∈ enrolPincodes wInp5) := by
  have h := (C5_outer_join_keys wInp5 [featRow wInp5 500] rfl).2.2.2.2.2 rfl rfl
  exact ⟨rfl, (h.1 (featRow wInp5 500) (List.Mem.head _)).1,
    (h.1 (featRow wInp5 500) (List.Mem.head _)).2, by decide⟩

/-! ## Claim C4 (corrected) -/

/-- One enrolment file with zero records: every input set is empty of
records, yet `files_found = 1` and the loader returns an (empty) table. -/
def cexEmptyFile : LoaderInput :=
  { enrolFiles := [[]], bioCols := [], bioFiles := [], demoCols := [], demoFiles := [] }

/-- Sources whose bracket columns carry no `'17'` marker: the adult-column
lookup fails but the loader still returns a scored-feature table with the
defaulted features instead of raising. -/
def cexNo17 : LoaderInput :=
  { enrolFiles := [[⟨77, 2, 3, "S", "D"⟩]]
    bioCols := ["bio_age_0_5"]
    bioFiles := [[(77, [4])]]
    demoCols := ["demo_age_0_5"]
    demoFiles := [[(77, [5])]] }

/-- Counterexample to claim C4: an input whose three sets contain no record
at all is loaded without error (`files_found` counts files, not records),
and an input where the required adult age-bracket columns cannot be located
is also loaded without error — the lookup failure is caught and the two
features defaulted to 0 instead of failing. -/
theorem C4_counterexample :
    filesFound cexEmptyFile = 1 ∧ load_and_merge_data cexEmptyFile = .ok [] ∧
      adultColsFound cexNo17 = false ∧
      load_and_merge_data cexNo17 = .ok [featRow cexNo17 77] ∧
      (featRow cexNo17 77).velocity_index = 0 ∧ (featRow cexNo17 77).ghost_ratio = 0 :=
  ⟨rfl, rfl, rfl, rfl, rfl, rfl⟩

/-- Membership in the (default-[]) result of a load: only `ok` results
have rows, and each is `featRow` at a merged key. -/
theorem mem_okD_load {inp : LoaderInput} {r : FeatRow}
    (hr : r ∈ okD (load_and_merge_data inp) []) :
    ∃ k ∈ allKeys inp, featRow inp k = r := by
  unfold load_and_merge_data at hr
  by_cases hf : filesFound inp = 0
  · rw [if_pos hf] at hr
    cases hr
  · rw [if_neg hf] at hr
    exact List.mem_map.mp hr

/-- Claim C4 as amended: the Feature Builder fails (the code's
`ValueError`) exactly when the filename scan matched no file of any
category; a matched file with zero records prevents the error, and a
missing adult age-bracket column never causes a failure — the `except
IndexError` path instead sets `velocity_index` and `ghost_ratio` to 0 (and
absent enrolment age columns set `adult_spike_ratio` to 0). -/
theorem C4_error_conditions (inp : LoaderInput) (r : FeatRow) :
    ((∃ e, load_and_merge_data inp = .error e) ↔ filesFound inp = 0) ∧
      (r ∈ okD (load_and_merge_data inp) [] → adultColsFound inp = false →
        r.velocity_index = 0 ∧ r.ghost_ratio = 0) ∧
      (r ∈ okD (load_and_merge_data inp) [] → hasAgeCols inp = false →
        r.adult_spike_ratio = 0) := by
  refine ⟨?_, ?_, ?_⟩
  · unfold load_and_merge_data
    by_cases hf : filesFound inp = 0
    · rw [if_pos hf]
      constructor
      · intro _
        exact hf
      · intro _
        exact ⟨_, rfl⟩
    · rw [if_neg hf]
      constructor
      · rintro ⟨e, he⟩
        cases he
      · intro hc
        exact absurd hc hf
  · intro hr hnone
    obtain ⟨k, hk, rfl⟩ := mem_okD_load hr
    constructor
    · show (if adultColsFound inp then bioAdultVal inp k + demoAdultVal inp k else 0) = 0
      rw [hnone]
      rfl
    · show (if adultColsFound inp then demoAdultVal inp k / ghostDen inp k else 0) = 0
      rw [hnone]
      rfl
  · intro hr hnone
    obtain ⟨k, hk, rfl⟩ := mem_okD_load hr
    show (if hasAgeCols inp then enrolAge18 inp k / total_activity inp k else 0) = 0
    rw [hnone]
    rfl

/-! ## Claim C2 (corrected) -/

/-- On a nonempty feature matrix and a contamination inside scikit-learn's
accepted interval `(0, 0.5]`, a scoring run succeeds and returns exactly
`mkScoredRow` over the input rows at the fitted seed and offset. -/
theorem train_and_score_ok (entropy : Nat) (df : List FeatRow) (c : ℚ)
    (hdf : (df.map featuresOf).isEmpty = false) (h1 : 0 < c) (h2 : c ≤ 1/2) :
    train_and_score entropy df c =
      .ok (df.map (mkScoredRow (resolveSeed codeRandomState entropy) (df.map featuresOf)
        (percentile (scoreSamples (resolveSeed codeRandomState entropy) (df.map featuresOf)
          (df.map featuresOf)) (100 * c)))) := by
  unfold train_and_score
  rw [if_pos ⟨h1, h2⟩, if_neg (by rw [hdf]; exact Bool.false_ne_true)]

/-- A single-region feature row for the degenerate-sample scenario. -/
def singleRegion : FeatRow := ⟨110001, "DL", "ND", 1/2, 3, 2⟩

/-- Counterexample to claim C2: `train_and_score` called on a single region
(at the engine's default `contamination=0.01`) returns a scored result —
the body has no minimum-sample check, scikit-learn fits a one-sample
matrix, and the repository defines no `ScoringError` anywhere. -/
theorem C2_counterexample :
    ∃ out, train_and_score 0 [singleRegion] (1/100) = .ok out ∧ out.length = 1 :=
  ⟨_, train_and_score_ok 0 [singleRegion] (1/100) rfl (by norm_num) (by norm_num), rfl⟩

/-- Claim C2 as amended: for any nonempty input — however few distinct
feature vectors it holds, in particular a single region or all-duplicate
rows — and any contamination in scikit-learn's accepted interval
`(0, 0.5]`, `train_and_score` does not fail: it returns a scored table
with one row per input region.  The repository has no minimum-sample or
distinctness check and no `ScoringError`; the only failures are
scikit-learn's own fit-time `ValueError`s (empty input, out-of-range
contamination). -/
theorem C2_no_degenerate_check (entropy : Nat) (df : List FeatRow) (c : ℚ)
    (hdf : df ≠ []) (h1 : 0 < c) (h2 : c ≤ 1/2) :
    ∃ out, train_and_score entropy df c = .ok out ∧ out.length = df.length := by
  have hmap : (df.map featuresOf).isEmpty = false := by
    cases df with
    | nil => exact absurd rfl hdf
    | cons a l => rfl
  exact ⟨_, train_and_score_ok entropy df c hmap h1 h2, List.length_map _ _⟩

theorem C2_no_degenerate_check_witness :
    ([singleRegion] ≠ ([] : List FeatRow)) ∧ (0 < (1/100 : ℚ)) ∧ ((1/100 : ℚ) ≤ 1/2) ∧
      ∃ out, train_and_score 0 [singleRegion] (1/100) = .ok out ∧ out.length = 1 := by
  refine ⟨List.cons_ne_nil _ _, by norm_num, by norm_num, ?_⟩
  obtain ⟨out, hok, hlen⟩ :=
    C2_no_degenerate_check 0 [singleRegion] (1/100) (List.cons_ne_nil _ _)
      (by norm_num) (by norm_num)
  exact ⟨out, hok, hlen⟩

/-! ## Claim C3 -/

/-- Rows of a successful scoring run are exactly `mkScoredRow` over the
input rows at the fitted model's seed and offset. -/
theorem score_ok_shape {entropy : Nat} {df : List FeatRow} {c : ℚ} {out : List ScoredRow}
    (h : train_and_score entropy df c = .ok out) :
    out = df.map (mkScoredRow (resolveSeed codeRandomState entropy) (df.map featuresOf)
      (percentile (scoreSamples (resolveSeed codeRandomState entropy) (df.map featuresOf)
        (df.map featuresOf)) (100 * c))) := by
  unfold train_and_score at h
  simp only [] at h
  split at h
  · split at h
    · cases h
    · cases h
      rfl
  · cases h

/-- Claim C3: every scored region's label is derived directly from the
detector's binary classification — the anomalous side (`predict = -1`,
equivalently a negative decision value) is labelled `CRITICAL`, every other
point gets the non-critical label (the spec's `NORMAL`, rendered `'Low'` by
the code), and no third label exists. -/
theorem C3_label_from_classification (entropy : Nat) (df : List FeatRow) (c : ℚ)
    (out : List ScoredRow) (s : ScoredRow)
    (hload : train_and_score entropy df c = .ok out) (hs : s ∈ out) :
    (s.anomaly_label = -1 → s.risk_status = "CRITICAL") ∧
      (s.anomaly_label ≠ -1 → s.risk_status = "Low") ∧
      (s.anomaly_label = -1 ↔ s.anomaly_score < 0) ∧
      (s.anomaly_label = -1 ∨ s.anomaly_label = 1) := by
  rw [score_ok_shape hload] at hs
  obtain ⟨r, hr, rfl⟩ := List.mem_map.mp hs
  unfold mkScoredRow
  by_cases hneg :
      scoreSample (resolveSeed codeRandomState entropy) (df.map featuresOf) (featuresOf r) -
        percentile (scoreSamples (resolveSeed codeRandomState entropy) (df.map featuresOf)
          (df.map featuresOf)) (100 * c) < 0
  · simp only [if_pos hneg]
    simp [hneg]
  · simp only [if_neg hneg]
    simp [hneg]

/-- Two concrete regions with distinct feature vectors. -/
def wEngRow1 : FeatRow := ⟨101, "A", "B", 1, 2, 3⟩

/-- Second concrete region. -/
def wEngRow2 : FeatRow := ⟨102, "C", "D", 0, 0, 0⟩

/-- A concrete two-region scoring input. -/
def wEngDf : List FeatRow := [wEngRow1, wEngRow2]

/-- The seed of the concrete run (the hard-coded 42). -/
def wEngSeed : Nat := resolveSeed codeRandomState 0

/-- The concrete run's feature matrix. -/
def wEngX : List Feat3 := wEngDf.map featuresOf

/-- The concrete run's fitted threshold. -/
def wEngOff : ℚ := percentile (scoreSamples wEngSeed wEngX wEngX) (100 * (1/100))

/-- The concrete run's output table. -/
def wEngOut : List ScoredRow := wEngDf.map (mkScoredRow wEngSeed wEngX wEngOff)

/-- The concrete run's first scored row. -/
def wEngS : ScoredRow := mkScoredRow wEngSeed wEngX wEngOff wEngRow1

theorem C3_label_from_classification_witness :
    train_and_score 0 wEngDf (1/100) = .ok wEngOut ∧
      (wEngS.anomaly_label = -1 → wEngS.risk_status = "CRITICAL") ∧
      (wEngS.anomaly_label ≠ -1 → wEngS.risk_status = "Low") ∧
      (wEngS.anomaly_label = -1 ↔ wEngS.anomaly_score < 0) ∧
      (wEngS.anomaly_label = -1 ∨ wEngS.anomaly_label = 1) := by
  have hok : train_and_score 0 wEngDf (1/100) = .ok wEngOut :=
    train_and_score_ok 0 wEngDf (1/100) rfl (by norm_num) (by norm_num)
  exact ⟨hok, C3_label_from_classification 0 wEngDf (1/100) wEngOut wEngS hok (List.Mem.head _)⟩

/-! ## Claim C7 -/

/-- Claim C7: scoring is deterministic — the engine hard-codes
`random_state=42`, so two runs on the same features and contamination
agree on the whole scored table (hence on every region's `anomaly_label`
and `anomaly_score`) whatever ambient entropy each run would otherwise
draw its seed from. -/
theorem C7_determinism (entropy1 entropy2 : Nat) (df : List FeatRow) (c : ℚ) :
    train_and_score entropy1 df c = train_and_score entropy2 df c := rfl

/-! ## Claim C10 -/

/-- Claim C10: `train_and_score` leaves every pre-existing column of its
input unchanged — projecting the scored rows back to their carried input
rows gives back exactly the input table (same keys, state, district and
feature values, in order) — and a `ScoredRow` extends a `FeatRow` with
exactly the four columns `anomaly_label`, `anomaly_score`,
`primary_risk_factor`, `risk_status`. -/
theorem C10_frame (entropy : Nat) (df : List FeatRow) (c : ℚ) (out : List ScoredRow)
    (hload : train_and_score entropy df c = .ok out) :
    out.map (fun s => s.base) = df := by
  rw [score_ok_shape hload, List.map_map]
  exact List.map_id _

theorem C10_frame_witness :
    train_and_score 0 wEngDf (1/100) = .ok wEngOut ∧
      wEngOut.map (fun s => s.base) = wEngDf := by
  have hok : train_and_score 0 wEngDf (1/100) = .ok wEngOut :=
    train_and_score_ok 0 wEngDf (1/100) rfl (by norm_num) (by norm_num)
  exact ⟨hok, C10_frame 0 wEngDf (1/100) wEngOut hok⟩

/-! ## Claim C6 -/

/-- `idxmax3` satisfies every requirement of `PrfSpec`: pandas' `idxmax`
returns the first column holding the row maximum, and the `features` column
order is exactly the spec's priority order, so first-max-wins and
priority-tie-break coincide. -/
theorem idxmax3_spec (a b c : ℚ) : PrfSpec a b c (idxmax3 a b c) := by
  unfold PrfSpec idxmax3 priorityArgmax
  by_cases h1 : b ≤ a ∧ c ≤ a
  · rw [if_pos h1, if_pos h1]
    exact ⟨Or.inl rfl, fun _ => h1, fun h => absurd h (by decide),
      fun h => absurd h (by decide), fun _ => rfl, fun hc => absurd h1 hc.1, rfl⟩
  · rw [if_neg h1, if_neg h1]
    by_cases h2 : c ≤ b
    · have hba : a ≤ b := by
        rcases not_and_or.mp h1 with hx | hx
        · exact le_of_lt (not_le.mp hx)
        · exact le_of_lt (lt_of_lt_of_le (not_le.mp hx) h2)
      rw [if_pos h2, if_pos ⟨hba, h2⟩]
      exact ⟨Or.inr (Or.inl rfl), fun h => absurd h (by decide), fun _ => ⟨hba, h2⟩,
        fun h => absurd h (by decide), fun hc => absurd hc h1, fun _ => rfl, rfl⟩
    · push_neg at h2
      have hac : a ≤ c := by
        rcases not_and_or.mp h1 with hx | hx
        · exact le_of_lt (lt_trans (not_le.mp hx) h2)
        · exact le_of_lt (not_le.mp hx)
      have hnb : ¬(a ≤ b ∧ c ≤ b) := fun hx => absurd hx.2 (not_le.mpr h2)
      rw [if_neg (not_le.mpr h2), if_neg hnb]
      exact ⟨Or.inr (Or.inr rfl), fun h => absurd h (by decide),
        fun h => absurd h (by decide), fun _ => ⟨hac, le_of_lt h2⟩,
        fun hc => absurd hc h1, fun hc => absurd hc.2 (not_le.mpr h2), rfl⟩

/-- Claim C6: for every scored region, `primary_risk_factor` is the feature
name of largest absolute SHAP contribution for that region, with ties
broken by the fixed priority `adult_spike_ratio` over `velocity_index` over
`ghost_ratio` (the `features` column order `idxmax` scans, not the memory
order of some array). -/
theorem C6_primary_risk_factor (entropy : Nat) (df : List FeatRow) (c : ℚ)
    (out : List ScoredRow) (s : ScoredRow)
    (hload : train_and_score entropy df c = .ok out) (hs : s ∈ out) :
    PrfSpec |(shapAt entropy df s.base).1| |(shapAt entropy df s.base).2.1|
      |(shapAt entropy df s.base).2.2| s.primary_risk_factor := by
  rw [score_ok_shape hload] at hs
  obtain ⟨r, hr, rfl⟩ := List.mem_map.mp hs
  exact idxmax3_spec _ _ _

theorem C6_primary_risk_factor_witness :
    train_and_score 0 wEngDf (1/100) = .ok wEngOut ∧
      PrfSpec |(shapAt 0 wEngDf wEngS.base).1| |(shapAt 0 wEngDf wEngS.base).2.1|
        |(shapAt 0 wEngDf wEngS.base).2.2| wEngS.primary_risk_factor := by
  have hok : train_and_score 0 wEngDf (1/100) = .ok wEngOut :=
    train_and_score_ok 0 wEngDf (1/100) rfl (by norm_num) (by norm_num)
  exact ⟨hok, C6_primary_risk_factor 0 wEngDf (1/100) wEngOut wEngS hok (List.Mem.head _)⟩

/-! ## Claim C9 -/

theorem interpAt_def (s : List ℚ) (p : ℚ) :
    interpAt s p = s.getD (min (⌊p⌋).toNat (s.length - 1)) 0 +
      (p - (⌊p⌋ : ℚ)) * (s.getD (min ((⌊p⌋).toNat + 1) (s.length - 1)) 0 -
        s.getD (min (⌊p⌋).toNat (s.length - 1)) 0) := rfl

theorem sget_mono {s : List ℚ} (hs : s.Sorted (· ≤ ·)) {i j : Nat} (hij : i ≤ j)
    (hj : j < s.length) : s.getD i 0 ≤ s.getD j 0 := by
  have hi : i < s.length := lt_of_le_of_lt hij hj
  rw [List.getD_eq_getElem s 0 hi, List.getD_eq_getElem s 0 hj]
  have := List.Sorted.rel_get_of_le hs (a := ⟨i, hi⟩) (b := ⟨j, hj⟩) hij
  simpa using this

/-- Monotonicity of linear interpolation over a sorted list of order
statistics, on the index range `np.percentile` uses. -/
theorem interpAt_mono {s : List ℚ} (hs : s.Sorted (· ≤ ·)) {p1 p2 : ℚ}
    (h0 : 0 ≤ p1) (h12 : p1 ≤ p2) (hn : p2 ≤ (s.length : ℚ) - 1) :
    interpAt s p1 ≤ interpAt s p2 := by
  have hlen : 1 ≤ s.length := by
    by_contra hc
    push_neg at hc
    have hz : s.length = 0 := by omega
    rw [hz] at hn
    norm_num at hn
    linarith
  have hf1 : (0 : ℤ) ≤ ⌊p1⌋ := Int.floor_nonneg.mpr h0
  have hf2 : (0 : ℤ) ≤ ⌊p2⌋ := Int.floor_nonneg.mpr (le_trans h0 h12)
  have hc1 : ((⌊p1⌋.toNat : ℤ) : ℚ) = ((⌊p1⌋ : ℤ) : ℚ) := by
    rw [Int.toNat_of_nonneg hf1]
  have hc2 : ((⌊p2⌋.toNat : ℤ) : ℚ) = ((⌊p2⌋ : ℤ) : ℚ) := by
    rw [Int.toNat_of_nonneg hf2]
  have hfloor2 : (⌊p2⌋ : ℚ) ≤ (s.length : ℚ) - 1 := le_trans (Int.floor_le p2) hn
  have hi2n : ⌊p2⌋.toNat ≤ s.length - 1 := by
    have hzq : (⌊p2⌋ : ℚ) ≤ ((s.length : ℤ) : ℚ) - 1 := by
      rw [Int.cast_natCast]
      exact hfloor2
    have hzz : ⌊p2⌋ ≤ (s.length : ℤ) - 1 := by
      exact_mod_cast hzq
    omega
  have hi12 : ⌊p1⌋.toNat ≤ ⌊p2⌋.toNat := by
    have := Int.floor_le_floor (α := ℚ) h12
    omega
  have hi1n : ⌊p1⌋.toNat ≤ s.length - 1 := le_trans hi12 hi2n
  have hmin1 : min (⌊p1⌋).toNat (s.length - 1) = (⌊p1⌋).toNat := min_eq_left hi1n
  have hmin2 : min (⌊p2⌋).toNat (s.length - 1) = (⌊p2⌋).toNat := min_eq_left hi2n
  have hfr1a : 0 ≤ p1 - (⌊p1⌋ : ℚ) := sub_nonneg.mpr (Int.floor_le p1)
  have hfr1b : p1 - (⌊p1⌋ : ℚ) ≤ 1 := by
    have := Int.lt_floor_add_one p1
    linarith
  have hfr2a : 0 ≤ p2 - (⌊p2⌋ : ℚ) := sub_nonneg.mpr (Int.floor_le p2)
  have hAB : s.getD (⌊p1⌋).toNat 0 ≤ s.getD (min ((⌊p1⌋).toNat + 1) (s.length - 1)) 0 := by
    apply sget_mono hs
    · exact le_min (Nat.le_succ _) hi1n
    · have := min_le_right ((⌊p1⌋).toNat + 1) (s.length - 1)
      omega
  have hCD : s.getD (⌊p2⌋).toNat 0 ≤ s.getD (min ((⌊p2⌋).toNat + 1) (s.length - 1)) 0 := by
    apply sget_mono hs
    · exact le_min (Nat.le_succ _) hi2n
    · have := min_le_right ((⌊p2⌋).toNat + 1) (s.length - 1)
      omega
  rw [interpAt_def, interpAt_def, hmin1, hmin2]
  rcases Nat.lt_or_ge (⌊p1⌋).toNat (⌊p2⌋).toNat with hlt | hge
  · -- distinct interpolation cells: pass through the order statistics between
    have step1 : s.getD (⌊p1⌋).toNat 0 +
        (p1 - (⌊p1⌋ : ℚ)) * (s.getD (min ((⌊p1⌋).toNat + 1) (s.length - 1)) 0 -
          s.getD (⌊p1⌋).toNat 0) ≤
        s.getD (min ((⌊p1⌋).toNat + 1) (s.length - 1)) 0 := by
      nlinarith [mul_nonneg (by linarith : (0 : ℚ) ≤ 1 - (p1 - (⌊p1⌋ : ℚ)))
        (sub_nonneg.mpr hAB)]
    have step2 : s.getD (min ((⌊p1⌋).toNat + 1) (s.length - 1)) 0 ≤
        s.getD (⌊p2⌋).toNat 0 := by
      apply sget_mono hs
      · exact le_trans (min_le_left _ _) hlt
      · omega
    have step3 : s.getD (⌊p2⌋).toNat 0 ≤
        s.getD (⌊p2⌋).toNat 0 +
          (p2 - (⌊p2⌋ : ℚ)) * (s.getD (min ((⌊p2⌋).toNat + 1) (s.length - 1)) 0 -
            s.getD (⌊p2⌋).toNat 0) := by
      nlinarith [mul_nonneg hfr2a (sub_nonneg.mpr hCD)]
    linarith
  · -- same cell: the floors agree and the segment has non-negative slope
    have heqN : (⌊p1⌋).toNat = (⌊p2⌋).toNat := le_antisymm hi12 hge
    have heqZ : ⌊p1⌋ = ⌊p2⌋ := by omega
    rw [← heqN, ← heqZ]
    have hslope : 0 ≤ s.getD (min ((⌊p1⌋).toNat + 1) (s.length - 1)) 0 -
        s.getD (⌊p1⌋).toNat 0 := sub_nonneg.mpr hAB
    have hf12 : p1 - (⌊p1⌋ : ℚ) ≤ p2 - (⌊p1⌋ : ℚ) := by linarith
    nlinarith [mul_le_mul_of_nonneg_right hf12 hslope]

/-- `np.percentile` is monotone in the percentile rank on `[0, 100]`. -/
theorem percentile_mono (l : List ℚ) {q1 q2 : ℚ} (h0 : 0 ≤ q1) (h12 : q1 ≤ q2)
    (h100 : q2 ≤ 100) : percentile l q1 ≤ percentile l q2 := by
  unfold percentile
  have hsorted : (List.insertionSort (· ≤ ·) l).Sorted (· ≤ ·) :=
    List.sorted_insertionSort (· ≤ ·) l
  have hlen : (List.insertionSort (· ≤ ·) l).length = l.length :=
    (List.perm_insertionSort (· ≤ ·) l).length_eq
  rcases Nat.eq_zero_or_pos l.length with hz | hpos
  · have hs0 : List.insertionSort (· ≤ ·) l = [] := by
      rw [← List.length_eq_zero, hlen, hz]
    rw [hs0, interpAt_def, interpAt_def]
    simp
  · have hn1 : (0 : ℚ) ≤ (l.length : ℚ) - 1 := by
      have : (1 : ℚ) ≤ (l.length : ℚ) := by
        exact_mod_cast Nat.one_le_cast.mpr hpos
      linarith
    apply interpAt_mono hsorted
    · exact mul_nonneg (div_nonneg h0 (by norm_num)) hn1
    · apply mul_le_mul_of_nonneg_right _ hn1
      linarith
    · rw [hlen]
      have : q2 / 100 ≤ 1 := by linarith
      calc q2 / 100 * ((l.length : ℚ) - 1) ≤ 1 * ((l.length : ℚ) - 1) :=
            mul_le_mul_of_nonneg_right this hn1
        _ = (l.length : ℚ) - 1 := one_mul _

/-- A scored row reports CRITICAL exactly when its sample score falls
strictly below the fitted offset. -/
theorem risk_critical_iff (seed : Nat) (trainX : List Feat3) (o : ℚ) (r : FeatRow) :
    (((mkScoredRow seed trainX o r).risk_status == "CRITICAL") = true) ↔
      scoreSample seed trainX (featuresOf r) - o < 0 := by
  unfold mkScoredRow
  by_cases h : scoreSample seed trainX (featuresOf r) - o < 0
  · simp only [if_pos h]
    simpa using h
  · simp only [if_neg h]
    constructor
    · intro hc
      have : ((if (1 : Int) = -1 then "CRITICAL" else "Low") == "CRITICAL") = false := by
        decide
      rw [this] at hc
      cases hc
    · intro hlt
      exact absurd hlt h

/-- Claim C9: with features and seed fixed, raising `contamination` from
0.01 to 0.05 never decreases the number of CRITICAL regions: the sample
scores do not depend on `contamination`, only the percentile threshold
does, and the percentile is monotone in its rank. -/
theorem C9_contamination_monotone (entropy : Nat) (df : List FeatRow) :
    countCritical (okD (train_and_score entropy df (1/100)) []) ≤
      countCritical (okD (train_and_score entropy df (5/100)) []) := by
  rcases hdf : df.map featuresOf |>.isEmpty with hemp | hemp
  case true =>
    -- scikit-learn refuses to fit an empty matrix: both runs fail alike
    have herr : ∀ c : ℚ, 0 < c ∧ c ≤ 1/2 →
        train_and_score entropy df c = .error "Found array with 0 samples" := by
      intro c hc
      unfold train_and_score
      rw [if_pos hc, if_pos hdf]
    rw [herr (1/100) (by norm_num), herr (5/100) (by norm_num)]
  case false =>
  have hshape : ∀ c : ℚ, 0 < c → c ≤ 1/2 → okD (train_and_score entropy df c) [] =
      df.map (mkScoredRow (resolveSeed codeRandomState entropy) (df.map featuresOf)
        (percentile (scoreSamples (resolveSeed codeRandomState entropy)
          (df.map featuresOf) (df.map featuresOf)) (100 * c))) := by
    intro c h1 h2
    rw [train_and_score_ok entropy df c hdf h1 h2]
    rfl
  rw [hshape (1/100) (by norm_num) (by norm_num), hshape (5/100) (by norm_num) (by norm_num)]
  unfold countCritical
  rw [List.countP_map, List.countP_map]
  apply List.countP_mono_left
  intro r hr hcrit
  have h1 := (risk_critical_iff _ _ _ r).mp hcrit
  have hoff : percentile (scoreSamples (resolveSeed codeRandomState entropy)
        (df.map featuresOf) (df.map featuresOf)) (100 * (1/100)) ≤
      percentile (scoreSamples (resolveSeed codeRandomState entropy)
        (df.map featuresOf) (df.map featuresOf)) (100 * (5/100)) := by
    apply percentile_mono
    · norm_num
    · norm_num
    · norm_num
  exact (risk_critical_iff _ _ _ r).mpr (by linarith)
